import Mathlib

/-!
# Verification of the supabase-rag-chatbot pipeline

Shallow embedding of the RAG pipeline of this repository:
text splitting and ingestion (`app/services/ingest_service.py`),
retrieval (`app/services/retrieval_service.py`), answer synthesis
(`app/services/chat_service.py`) and the HTTP route glue
(`app/api/routes/chat.py`, `app/api/routes/ingest.py`,
`app/models/schemas.py`, `app/core/config.py`).

Python dictionaries are modelled as association lists with first-match
lookup; Python string/dict truthiness (`x or y`) is modelled explicitly;
fallible collaborators (document loader, vector store, language model)
are passed in as `Except`-valued parameters.
-/

set_option autoImplicit false

namespace SupaRag

/-- A JSON-ish value stored in a metadata map (Python dict values). -/
inductive Val where
  | vstr (s : String)
  | vnum (q : ℚ)
  | vnull
  deriving DecidableEq, Repr

/-- A Python dict with string keys, as an association list (insertion
order preserved, first-match lookup; real dicts have unique keys). -/
abbrev Meta := List (String × Val)

/-- Python dict entry assignment `m[k] = v` as used by the unpacking
`{**base, k: v}`: overwrite the existing entry in place, else append. -/
def dictInsert (m : Meta) (k : String) (v : Val) : Meta :=
  if (m.lookup k).isSome then
    m.map (fun kv => if kv.1 = k then (k, v) else kv)
  else
    m ++ [(k, v)]

/-- Python `x or d` on an optional string: `None` and `""` are falsy. -/
def pyOrStr (x : Option String) (d : String) : String :=
  match x with
  | some s => if s = "" then d else s
  | none => d

/-- Python `x or d` on a plain string: `""` is falsy. -/
def truthyStr (s d : String) : String :=
  if s = "" then d else s

/-- Python `x or d` on an optional dict: `None` and `{}` are falsy. -/
def pyOrMeta (x : Option Meta) (d : Meta) : Meta :=
  match x with
  | some m => if m.isEmpty then d else m
  | none => d

/-- Python `x or d` on an optional int: `None` and `0` are falsy. -/
def pyOrNat (x : Option Nat) (d : Nat) : Nat :=
  match x with
  | some n => if n = 0 then d else n
  | none => d

/-! ## Text splitter

The splitting algorithm itself lives in the external library
(`langchain_text_splitters.CharacterTextSplitter`), whose source is not
under `src/`; `IngestService._split` only delegates to it.  The window
walk below is therefore modelled from the spec (§4.1). -/

/-- One loaded unit of source text (e.g. one PDF page) with metadata. -/
structure SourceUnit where
  text : List Char
  metadata : Meta
  deriving DecidableEq, Repr

/-- A chunk produced by splitting: text plus inherited metadata and a
sequence index within its unit. -/
structure Chunk where
  text : List Char
  metadata : Meta
  chunk_index : Nat
  deriving DecidableEq, Repr

/-- Modelled from the spec: the core window walk of the external
`CharacterTextSplitter` (not under `src/`), per §4.1: consecutive
windows of length `s`, the start advancing by `step = s - o` each step,
until the remaining text is no longer than `s`, in which case the final
window takes the remainder; empty text yields no chunks.  The
`max step 1` is a termination guard: callers reach this only after
validation has ensured `o < s`, where `max (s - o) 1 = s - o`. -/
def splitStep (s step : Nat) (t : List Char) : List (List Char) :=
  if t.length ≤ s then
    (if t = [] then [] else [t])
  else
    t.take s :: splitStep s step (t.drop (max step 1))
termination_by t.length
decreasing_by
  simp only [List.length_drop]
  omega

/-- Modelled from the spec: split one unit's text with window size `s`
and overlap `o` (§4.1); the window start advances by `s - o`. -/
def splitUnit (s o : Nat) (t : List Char) : List (List Char) :=
  splitStep s (s - o) t

/-- Modelled from the spec: each `SourceUnit` is split independently;
every chunk inherits the unit's metadata verbatim plus its sequence
index within the unit (§4.1). -/
def splitUnits (s o : Nat) (units : List SourceUnit) : List Chunk :=
  (units.map (fun u =>
    ((splitUnit s o u.text).enum).map
      (fun it => Chunk.mk it.2 u.metadata it.1))).flatten

/-! ## Ingestion configuration, validation and the ingest pipeline -/

/-- Chunking parameters (`chunk_size`, `chunk_overlap` request fields). -/
structure IngestionConfig where
  chunk_size : Int
  chunk_overlap : Int
  deriving DecidableEq, Repr

/-- Pipeline errors: invalid chunking configuration, or a failure of an
external collaborator (loader / embed+write path). -/
inductive PipeError where
  | invalidConfig
  | loadFailed (msg : String)
  | writeFailed (msg : String)
  deriving DecidableEq, Repr

/-- Modelled from the spec: `chunk_size > 0`, `chunk_overlap >= 0` and
`chunk_overlap < chunk_size` (§3 `IngestionConfig`); the validation is
performed by the external splitter library, not under `src/`. -/
def validConfig (cfg : IngestionConfig) : Bool :=
  0 < cfg.chunk_size && 0 ≤ cfg.chunk_overlap &&
    cfg.chunk_overlap < cfg.chunk_size

/-- Modelled from the spec: `IngestService._split` delegates to the
external splitter; per §4.1 it fails with `InvalidConfig` on a bad
configuration and otherwise windows each unit independently. -/
def split (cfg : IngestionConfig) (units : List SourceUnit) :
    Except PipeError (List Chunk) :=
  if validConfig cfg then
    .ok (splitUnits cfg.chunk_size.toNat cfg.chunk_overlap.toNat units)
  else
    .error .invalidConfig

/-- An I/O collaborator invocation observed during one ingest call. -/
inductive Event where
  | loaderCall
  | storeWriteCall
  deriving DecidableEq, Repr

/-- `IngestService.ingest_pdf_path`: load the PDF into source units,
split them, write the chunks (embedding is delegated to the vector
store's write path), and return the number of chunks written.  The
loader's outcome and the store's write behaviour are passed in; the
second component records which I/O collaborators were invoked, in
order. -/
def ingest_pdf_path (loadResult : Except PipeError (List SourceUnit))
    (write : List Chunk → Except PipeError Unit)
    (cfg : IngestionConfig) : Except PipeError Nat × List Event :=
  match loadResult with
  | .error e => (.error e, [.loaderCall])
  | .ok raw_docs =>
    match split cfg raw_docs with
    | .error e => (.error e, [.loaderCall])
    | .ok chunks =>
      match write chunks with
      | .error e => (.error e, [.loaderCall, .storeWriteCall])
      | .ok _ => (.ok chunks.length, [.loaderCall, .storeWriteCall])

/-! ## Upload filename sanitisation (`IngestService.save_upload_to_tmp`)

Paths are modelled as character lists; only the path computation is
embedded (the actual byte write is filesystem I/O). -/

/-- `os.path.basename`: the suffix after the last `'/'` (the whole
string when it has no `'/'`). -/
def basename (p : List Char) : List Char :=
  (p.reverse.takeWhile (fun c => c ≠ '/')).reverse

/-- `os.path.join` for two POSIX path components. -/
def os_path_join (a b : List Char) : List Char :=
  if b.head? = some '/' then b
  else if a = [] ∨ a.getLast? = some '/' then a ++ b
  else a ++ '/' :: b

/-- The storage path computed by `save_upload_to_tmp`:
`os.path.join(settings.tmp_dir, os.path.basename(filename))`. -/
def save_upload_path (tmp_dir filename : List Char) : List Char :=
  os_path_join tmp_dir (basename filename)

/-! ## Retrieval (`RetrievalService.similarity_search`) -/

/-- One row returned by the vector store RPC; every field may be
absent (`r.get(...)`). -/
structure Row where
  id : Option String
  content : Option String
  page_content : Option String
  metadata : Option Meta
  similarity : Option ℚ
  deriving DecidableEq, Repr

/-- A LangChain `Document`: page content plus metadata. -/
structure Doc where
  page_content : String
  metadata : Meta
  deriving DecidableEq, Repr

/-- The RPC payload built by `similarity_search`; the
`match_threshold` key is present exactly when the field is `some`. -/
structure RpcPayload where
  query_embedding : List ℚ
  match_count : Nat
  filter : Meta
  match_threshold : Option ℚ
  deriving DecidableEq, Repr

/-- Encode an optional string as a metadata value (`None` → null). -/
def optStrVal (x : Option String) : Val :=
  match x with
  | some s => .vstr s
  | none => .vnull

/-- Encode an optional number as a metadata value (`None` → null). -/
def optNumVal (x : Option ℚ) : Val :=
  match x with
  | some q => .vnum q
  | none => .vnull

/-- Row-to-`Document` mapping of `similarity_search`:
`page_content = r.get("content") or r.get("page_content") or ""` and
`metadata = {**(r.get("metadata") or {}), "_id": r.get("id"),
"_similarity": r.get("similarity")}`. -/
def rowToDoc (r : Row) : Doc :=
  { page_content := pyOrStr r.content (pyOrStr r.page_content "")
    metadata :=
      dictInsert (dictInsert (pyOrMeta r.metadata []) "_id" (optStrVal r.id))
        "_similarity" (optNumVal r.similarity) }

/-- The payload `similarity_search` sends to the store's
nearest-neighbor RPC. -/
def similarity_search_payload (embed : String → List ℚ) (query : String)
    (k : Nat) (filter : Option Meta) (match_threshold : Option ℚ) :
    RpcPayload :=
  { query_embedding := embed query
    match_count := k
    filter := pyOrMeta filter []
    match_threshold := match_threshold }

/-- Python `resp.data or []`: `None` and `[]` are falsy. -/
def pyOrRows (x : Option (List Row)) : List Row :=
  match x with
  | some l => if l.isEmpty then [] else l
  | none => []

/-- `RetrievalService.similarity_search`: embed the query, issue the
single RPC with the constructed payload, and map the returned rows in
store order.  The store is passed in as `rpc` (its `.execute().data`
may be `None`). -/
def similarity_search (embed : String → List ℚ)
    (rpc : RpcPayload → Option (List Row)) (query : String) (k : Nat)
    (filter : Option Meta) (match_threshold : Option ℚ) : List Doc :=
  (pyOrRows
    (rpc (similarity_search_payload embed query k filter match_threshold))).map
    rowToDoc

/-- The similarity annotation recorded on a retrieved document. -/
def docSim (d : Doc) : Option ℚ :=
  match d.metadata.lookup "_similarity" with
  | some (.vnum q) => some q
  | _ => none

/-- "Sorted by similarity descending" over retrieved documents, the
annotated similarity defaulting to `0` when absent. -/
def sortedBySimDesc (docs : List Doc) : Prop :=
  List.Chain' (fun a b => (docSim b).getD 0 ≤ (docSim a).getD 0) docs

/-! ## Answer synthesis (`ChatService`) -/

/-- One role-tagged message sent to the language model. -/
structure Msg where
  role : String
  content : String
  deriving DecidableEq, Repr

/-- The fixed separator joining chunk texts in the context string. -/
def contextSep : String := "\n\n---\n\n"

/-- The context string of `_build_messages`: the chunk texts with
empty ones skipped (`if d.page_content` truthiness), joined by the
fixed separator. -/
def build_context (docs : List Doc) : String :=
  String.intercalate contextSep
    ((docs.filter (fun d => d.page_content ≠ "")).map (fun d => d.page_content))

/-- The literal system instruction of `_build_messages`. -/
def system_content : String :=
  "You are an AI assistant with unparalleled expertise in the Agentic BaaS framework. Use the provided context to answer. If the context is insufficient, say so."

/-- The user message content of `_build_messages`: the literal query
and the assembled context. -/
def user_content (user_query : String) (docs : List Doc) : String :=
  "User question:\n" ++ user_query ++ "\n\n" ++
    "Context (retrieved):\n" ++ build_context docs

/-- `ChatService._build_messages`: a system message followed by a user
message. -/
def build_messages (user_query : String) (docs : List Doc) : List Msg :=
  [⟨"system", system_content⟩, ⟨"user", user_content user_query docs⟩]

/-- `ChatService.answer`: build the messages and call the language
model (passed in as `llm`) with the model name, token cap and
temperature; the model's outcome is returned unchanged. -/
def answer (llm : List Msg → String → Nat → ℚ → Except String String)
    (query : String) (retrieved_docs : List Doc) (model : String)
    (max_output_tokens : Nat) (temperature : ℚ) : Except String String :=
  llm (build_messages query retrieved_docs) model max_output_tokens temperature

/-! ## Configuration defaults (`app/core/config.py`) -/

def settings_openai_model : String := "gpt-5.2"

def settings_chunk_size : Int := 1000

def settings_chunk_overlap : Int := 200

def settings_default_k : Nat := 4

def settings_max_k : Nat := 20

/-- `default_temperature: float = 0.4`. -/
def settings_default_temperature : ℚ := 2 / 5

def settings_default_max_output_tokens : Nat := 400

def settings_tmp_dir : List Char := "./tmp".toList

/-! ## Chat route (`app/api/routes/chat.py`) -/

/-- The request body of `POST /chat` (`ChatRequest` in `schemas.py`);
optional fields are `None` when absent. -/
structure ChatRequest where
  query : String
  k : Nat
  filter : Option Meta
  match_threshold : Option ℚ
  model : Option String
  max_output_tokens : Option Nat
  temperature : Option ℚ
  deriving DecidableEq, Repr

/-- `model = req.model or settings.openai_model` (string truthiness:
an empty string is replaced by the default). -/
def resolve_model (req_model : Option String) : String :=
  pyOrStr req_model settings_openai_model

/-- `max_output_tokens = req.max_output_tokens or
settings.default_max_output_tokens` (int truthiness). -/
def resolve_max_output_tokens (x : Option Nat) : Nat :=
  pyOrNat x settings_default_max_output_tokens

/-- `temperature = req.temperature if req.temperature is not None else
settings.default_temperature` (an is-not-None check, not truthiness). -/
def resolve_temperature (x : Option ℚ) : ℚ :=
  match x with
  | some t => t
  | none => settings_default_temperature

/-- The count passed to retrieval: `k=min(req.k, settings.max_k)`. -/
def retrieval_k (req_k : Nat) : Nat :=
  min req_k settings_max_k

/-- One entry of the response's sources list (`SourceChunk` in
`schemas.py`: `content_preview` plus `metadata`).  The route's code
names this class `SourceDoc`, a name `schemas.py` does not define. -/
structure SourceChunk where
  content_preview : String
  metadata : Meta
  deriving DecidableEq, Repr

/-- The response body of `POST /chat` (`ChatResponse` in `schemas.py`). -/
structure ChatResponse where
  answer : String
  sources : List SourceChunk
  deriving DecidableEq, Repr

/-- One sources entry as built by the route:
`content_preview=(d.page_content or "")[:500]`,
`metadata=d.metadata or {}` (dict truthiness). -/
def mkSource (d : Doc) : SourceChunk :=
  { content_preview := (truthyStr d.page_content "").take 500
    metadata := pyOrMeta (some d.metadata) [] }

/-- The `chat` route handler: retrieve with the clamped `k`, resolve
the model/token/temperature defaults, call the chat service, and build
the response with one sources entry per retrieved document.  (As
written in `src`, the handler is unreachable: the module imports the
undefined name `SourceDoc`; this definition embeds the handler body
with the response-model class `schemas.py` actually defines.) -/
def chat_route (embed : String → List ℚ)
    (rpc : RpcPayload → Option (List Row))
    (llm : List Msg → String → Nat → ℚ → Except String String)
    (req : ChatRequest) : Except String ChatResponse :=
  let retrieved_docs := similarity_search embed rpc req.query
    (retrieval_k req.k) req.filter req.match_threshold
  match answer llm req.query retrieved_docs (resolve_model req.model)
      (resolve_max_output_tokens req.max_output_tokens)
      (resolve_temperature req.temperature) with
  | .error e => .error e
  | .ok a => .ok { answer := a, sources := retrieved_docs.map mkSource }

/-- The names `app/models/schemas.py` defines at module level. -/
def schemas_exports : List String :=
  ["IngestResponse", "ChatRequest", "SourceChunk", "ChatResponse"]

/-- The names `app/api/routes/chat.py` line 4 imports from
`app.models.schemas`. -/
def chat_route_schema_imports : List String :=
  ["ChatRequest", "ChatResponse", "SourceDoc"]

/-! ## Fixtures and reassembly helper used by the theorems -/

/-- Reassemble chunks by dropping the `o` overlapped characters from
every chunk after the first: equals the original text exactly when the
splitter padded nothing and dropped nothing. -/
def rejoin (o : Nat) (cs : List (List Char)) : List Char :=
  match cs with
  | [] => []
  | c :: rest => c ++ (rest.map (fun d => d.drop o)).flatten

/-- A concrete loaded source unit. -/
def c2unit : SourceUnit := ⟨"hello".toList, []⟩

/-- A store row with similarity `0`. -/
def c4row0 : Row :=
  { id := some "a", content := some "low", page_content := none,
    metadata := some [], similarity := some 0 }

/-- A store row with similarity `1`. -/
def c4row1 : Row :=
  { id := some "b", content := some "high", page_content := none,
    metadata := some [], similarity := some 1 }

/-- A store row whose own metadata already uses the `_id` key. -/
def c9row : Row :=
  { id := some "rowid", content := none, page_content := none,
    metadata := some [("_id", .vstr "old")], similarity := some 1 }

/-! ## Shared helper lemmas -/

set_option maxRecDepth 16384

theorem pyOrMeta_some (m : Meta) : pyOrMeta (some m) [] = m := by
  cases m <;> rfl

theorem lookup_cons (a : String) (b : Val) (l : Meta) (k : String) :
    ((a, b) :: l).lookup k = if k = a then some b else l.lookup k := by
  by_cases h : k = a
  · subst h; simp [List.lookup]
  · simp [List.lookup, h, beq_eq_false_iff_ne.mpr h]

theorem lookup_map_replace_self (m : Meta) (k : String) (v : Val)
    (h : (m.lookup k).isSome) :
    (m.map (fun kv => if kv.1 = k then (k, v) else kv)).lookup k = some v := by
  induction m with
  | nil => simp [List.lookup] at h
  | cons kv tl ih =>
    obtain ⟨a, b⟩ := kv
    by_cases hk : a = k
    · subst hk
      simp [lookup_cons]
    · have hk' : ¬ (k = a) := fun e => hk e.symm
      rw [lookup_cons, if_neg hk'] at h
      simp only [List.map_cons]
      rw [if_neg hk, lookup_cons, if_neg hk']
      exact ih h

theorem lookup_map_replace_ne (m : Meta) (k k' : String) (v : Val)
    (h : k' ≠ k) :
    (m.map (fun kv => if kv.1 = k then (k, v) else kv)).lookup k' =
      m.lookup k' := by
  induction m with
  | nil => simp
  | cons kv tl ih =>
    obtain ⟨a, b⟩ := kv
    simp only [List.map_cons]
    by_cases hk : a = k
    · subst hk
      rw [if_pos rfl, lookup_cons, if_neg h, lookup_cons, if_neg h]
      exact ih
    · rw [if_neg hk, lookup_cons, lookup_cons]
      by_cases hk2 : k' = a
      · simp [hk2]
      · rw [if_neg hk2, if_neg hk2]
        exact ih

theorem lookup_append_meta (m l : Meta) (k : String) :
    (m ++ l).lookup k = (m.lookup k).or (l.lookup k) := by
  induction m with
  | nil => rfl
  | cons kv tl ih =>
    obtain ⟨a, b⟩ := kv
    rw [List.cons_append, lookup_cons, lookup_cons]
    by_cases hk : k = a
    · simp [hk]
    · rw [if_neg hk, if_neg hk]
      exact ih

theorem dictInsert_lookup_self (m : Meta) (k : String) (v : Val) :
    (dictInsert m k v).lookup k = some v := by
  rw [dictInsert]
  split
  · exact lookup_map_replace_self m k v (by assumption)
  · rename_i h
    rw [Option.not_isSome_iff_eq_none] at h
    rw [lookup_append_meta, h, lookup_cons]
    simp

theorem dictInsert_lookup_ne (m : Meta) (k k' : String) (v : Val)
    (h : k' ≠ k) :
    (dictInsert m k v).lookup k' = m.lookup k' := by
  rw [dictInsert]
  split
  · exact lookup_map_replace_ne m k k' v h
  · rw [lookup_append_meta, lookup_cons, if_neg h]
    cases List.lookup k' m <;> rfl

theorem rowToDoc_metadata_id (r : Row) :
    (rowToDoc r).metadata.lookup "_id" = some (optStrVal r.id) := by
  show (dictInsert (dictInsert (pyOrMeta r.metadata []) "_id" (optStrVal r.id))
    "_similarity" (optNumVal r.similarity)).lookup "_id" = some (optStrVal r.id)
  rw [dictInsert_lookup_ne _ _ _ _ (by decide), dictInsert_lookup_self]

theorem rowToDoc_metadata_similarity (r : Row) :
    (rowToDoc r).metadata.lookup "_similarity" =
      some (optNumVal r.similarity) := by
  show (dictInsert (dictInsert (pyOrMeta r.metadata []) "_id" (optStrVal r.id))
    "_similarity" (optNumVal r.similarity)).lookup "_similarity" =
      some (optNumVal r.similarity)
  rw [dictInsert_lookup_self]

theorem docSim_rowToDoc (r : Row) : docSim (rowToDoc r) = r.similarity := by
  rw [docSim, rowToDoc_metadata_similarity]
  cases r.similarity <;> rfl

theorem splitStep_nil (s step : Nat) : splitStep s step [] = [] := by
  rw [splitStep]
  simp

theorem splitStep_of_le (s step : Nat) (t : List Char) (h : t.length ≤ s) :
    splitStep s step t = if t = [] then [] else [t] := by
  rw [splitStep, if_pos h]

theorem splitStep_of_gt (s step : Nat) (t : List Char) (h : s < t.length) :
    splitStep s step t =
      t.take s :: splitStep s step (t.drop (max step 1)) := by
  rw [splitStep]
  rw [if_neg (Nat.not_le.mpr h)]

theorem splitStep_ne_nil (s step : Nat) (t : List Char) (h : t ≠ []) :
    splitStep s step t ≠ [] := by
  by_cases hle : t.length ≤ s
  · rw [splitStep_of_le s step t hle, if_neg h]
    simp
  · rw [splitStep_of_gt s step t (Nat.not_le.mp hle)]
    simp

theorem splitStep_head (s step : Nat) (t : List Char) (h : t ≠ []) :
    (splitStep s step t).head? = some (t.take s) := by
  by_cases hle : t.length ≤ s
  · rw [splitStep_of_le s step t hle, if_neg h]
    simp [List.take_of_length_le hle]
  · rw [splitStep_of_gt s step t (Nat.not_le.mp hle)]
    rfl

theorem splitStep_length_le (s step : Nat) (t : List Char) :
    ∀ c ∈ splitStep s step t, c.length ≤ s := by
  induction t using splitStep.induct s step with
  | case1 h1 => rw [splitStep_nil]; simp
  | case2 t hle hne =>
    rw [splitStep_of_le s step t hle, if_neg hne]
    simpa using hle
  | case3 t hgt ih =>
    rw [splitStep_of_gt s step t (Nat.not_le.mp hgt)]
    intro c hc
    rcases List.mem_cons.mp hc with rfl | hc
    · simp [List.length_take]
    · exact ih c hc

theorem splitStep_mem_ne_nil (s step : Nat) (hs : 0 < s) (t : List Char) :
    ∀ c ∈ splitStep s step t, c ≠ [] := by
  induction t using splitStep.induct s step with
  | case1 h1 => rw [splitStep_nil]; simp
  | case2 t hle hne =>
    rw [splitStep_of_le s step t hle, if_neg hne]
    simpa using hne
  | case3 t hgt ih =>
    rw [splitStep_of_gt s step t (Nat.not_le.mp hgt)]
    intro c hc
    rcases List.mem_cons.mp hc with rfl | hc
    · have hlt := Nat.not_le.mp hgt
      simp only [ne_eq, List.take_eq_nil_iff]
      push_neg
      constructor
      · omega
      · intro he
        rw [he] at hlt
        simp at hlt
    · exact ih c hc

theorem splitStep_closed_form (s step : Nat) (hstep : 0 < step)
    (t : List Char) :
    splitStep s step t =
      (List.range (splitStep s step t).length).map
        (fun i => (t.drop (i * step)).take s) := by
  have hmax : max step 1 = step := Nat.max_eq_left hstep
  induction t using splitStep.induct s step with
  | case1 h1 => rw [splitStep_nil]; simp
  | case2 t hle hne =>
    rw [splitStep_of_le s step t hle, if_neg hne]
    simp [List.range_succ, List.take_of_length_le hle]
  | case3 t hgt ih =>
    rw [splitStep_of_gt s step t (Nat.not_le.mp hgt), hmax]
    rw [hmax] at ih
    rw [List.length_cons, List.range_succ_eq_map, List.map_cons, List.map_map]
    congr 1
    · simp
    · conv_lhs => rw [ih]
      apply List.map_congr_left
      intro i _
      simp only [Function.comp_apply, List.drop_drop, Nat.succ_mul,
        Nat.add_comm]

theorem splitStep_getLast (s step : Nat) (hstep : 0 < step) (hss : step ≤ s)
    (t : List Char) :
    t ≠ [] → (splitStep s step t).getLast? =
      some (t.drop (((splitStep s step t).length - 1) * step)) := by
  have hmax : max step 1 = step := Nat.max_eq_left hstep
  induction t using splitStep.induct s step with
  | case1 h1 => intro h; cases h rfl
  | case2 t hle hne =>
    intro h
    rw [splitStep_of_le s step t hle, if_neg hne]
    simp
  | case3 t hgt ih =>
    intro h
    have hlt := Nat.not_le.mp hgt
    rw [splitStep_of_gt s step t hlt, hmax]
    rw [hmax] at ih
    have ht' : t.drop step ≠ [] := by
      simp only [ne_eq, List.drop_eq_nil_iff]
      omega
    have hrest := splitStep_ne_nil s step (t.drop step) ht'
    obtain ⟨b, l, hbl⟩ := List.exists_cons_of_ne_nil hrest
    have ihh := ih ht'
    rw [hbl] at ihh ⊢
    rw [List.getLast?_cons_cons, ihh]
    rw [List.drop_drop]
    congr 2
    simp only [List.length_cons, Nat.add_sub_cancel]
    rw [Nat.add_mul, Nat.one_mul]
    omega

theorem splitUnit_chain (s o : Nat) (h : o < s) (t : List Char) :
    List.Chain' (fun a b => a.length = s ∧ o < b.length ∧
      b.take o = a.drop (s - o)) (splitUnit s o t) := by
  have hstep : 0 < s - o := by omega
  have hmax : max (s - o) 1 = s - o := Nat.max_eq_left hstep
  rw [splitUnit]
  induction t using splitStep.induct s (s - o) with
  | case1 h1 => rw [splitStep_nil]; exact List.chain'_nil
  | case2 t hle hne =>
    rw [splitStep_of_le _ _ _ hle, if_neg hne]
    exact List.chain'_singleton _
  | case3 t hgt ih =>
    have hlt := Nat.not_le.mp hgt
    rw [splitStep_of_gt _ _ _ hlt, hmax]
    rw [hmax] at ih
    rw [List.chain'_cons']
    refine ⟨?_, ih⟩
    intro y hy
    have ht' : t.drop (s - o) ≠ [] := by
      simp only [ne_eq, List.drop_eq_nil_iff]
      omega
    rw [splitStep_head _ _ _ ht'] at hy
    simp only [Option.mem_def, Option.some.injEq] at hy
    subst hy
    refine ⟨?_, ?_, ?_⟩
    · simp only [List.length_take]
      omega
    · simp only [List.length_take, List.length_drop]
      omega
    · rw [List.take_take]
      rw [Nat.min_eq_left (le_of_lt h)]
      rw [List.drop_take]
      congr 1
      omega

theorem splitUnit_rejoin (s o : Nat) (h : o < s) (t : List Char) :
    rejoin o (splitUnit s o t) = t := by
  have hstep : 0 < s - o := by omega
  have hmax : max (s - o) 1 = s - o := Nat.max_eq_left hstep
  rw [splitUnit]
  induction t using splitStep.induct s (s - o) with
  | case1 h1 => rw [splitStep_nil]; rfl
  | case2 t hle hne =>
    rw [splitStep_of_le _ _ _ hle, if_neg hne]
    simp [rejoin]
  | case3 t hgt ih =>
    have hlt := Nat.not_le.mp hgt
    rw [splitStep_of_gt _ _ _ hlt, hmax]
    rw [hmax] at ih
    have ht' : t.drop (s - o) ≠ [] := by
      simp only [ne_eq, List.drop_eq_nil_iff]
      omega
    obtain ⟨hd, tl, hsp⟩ :=
      List.exists_cons_of_ne_nil (splitStep_ne_nil s (s - o) _ ht')
    have hhd : hd = (t.drop (s - o)).take s := by
      have hh := splitStep_head s (s - o) _ ht'
      rw [hsp] at hh
      simpa using hh
    rw [hsp]
    rw [hsp] at ih
    have ihe : hd ++ (tl.map (fun d => d.drop o)).flatten = t.drop (s - o) :=
      ih
    show t.take s ++ ((hd :: tl).map (fun d => d.drop o)).flatten = t
    rw [List.map_cons, List.flatten_cons]
    have htakes : t.take s = t.take (s - o) ++ (t.drop (s - o)).take o := by
      conv_lhs => rw [show s = (s - o) + o by omega]
      rw [List.take_add]
    have hhdtake : (t.drop (s - o)).take o = hd.take o := by
      rw [hhd, List.take_take, Nat.min_eq_left (le_of_lt h)]
    calc t.take s ++ (hd.drop o ++ (tl.map (fun d => d.drop o)).flatten)
        = (t.take (s - o) ++ (t.drop (s - o)).take o) ++
            (hd.drop o ++ (tl.map (fun d => d.drop o)).flatten) := by
          rw [← htakes]
      _ = t.take (s - o) ++ (hd ++ (tl.map (fun d => d.drop o)).flatten) := by
          rw [hhdtake]
          simp only [List.append_assoc]
          rw [← List.append_assoc (hd.take o), List.take_append_drop]
      _ = t.take (s - o) ++ t.drop (s - o) := by rw [ihe]
      _ = t := List.take_append_drop _ _

/-! ## Claim theorems -/

/-- C10: at `POST /chat`, an explicitly supplied temperature of `0.0`
is forwarded as `0.0` (the default applies only when the field is
absent, via an is-not-None check), whereas a supplied empty-string
model is falsy and silently replaced by the configured default model. -/
theorem C10_temperature_vs_model_defaults :
    resolve_temperature (some 0) = 0 ∧
    (∀ t : ℚ, resolve_temperature (some t) = t) ∧
    resolve_temperature none = settings_default_temperature ∧
    resolve_model (some "") = settings_openai_model ∧
    resolve_model none = settings_openai_model ∧
    (∀ s : String, s ≠ "" → resolve_model (some s) = s) := by
  refine ⟨rfl, fun t => rfl, rfl, rfl, rfl, fun s hs => ?_⟩
  simp [resolve_model, pyOrStr, hs]

/-- Witness for C10 at the concrete model string `"gpt-4o"`. -/
theorem C10_temperature_vs_model_defaults_witness :
    resolve_model (some "gpt-4o") = "gpt-4o" :=
  C10_temperature_vs_model_defaults.2.2.2.2.2 "gpt-4o" (by decide)

/-- C8: the storage path of an upload is the tmp directory joined with
the basename of the client-supplied filename, the basename contains no
directory separator, and `"../../etc/passwd"` reduces to `"passwd"`,
yielding a path directly inside the tmp directory. -/
theorem C8_upload_filename_sanitized :
    (∀ f : List Char, ∀ c ∈ basename f, c ≠ '/') ∧
    (∀ tmp f : List Char, tmp ≠ [] → tmp.getLast? ≠ some '/' →
      save_upload_path tmp f = tmp ++ '/' :: basename f) ∧
    basename ("../../etc/passwd".toList) = "passwd".toList ∧
    save_upload_path settings_tmp_dir ("../../etc/passwd".toList) =
      "./tmp/passwd".toList := by
  have hb : ∀ f : List Char, ∀ c ∈ basename f, c ≠ '/' := by
    intro f c hc
    rw [basename, List.mem_reverse] at hc
    have hp := List.mem_takeWhile_imp hc
    simpa using hp
  refine ⟨hb, ?_, by decide, by decide⟩
  intro tmp f htmp hlast
  have h1 : ¬ ((basename f).head? = some '/') := by
    intro hhead
    cases hbn : basename f with
    | nil => rw [hbn] at hhead; simp at hhead
    | cons a l =>
      rw [hbn] at hhead
      simp at hhead
      exact hb f '/' (by rw [hbn, hhead]; exact List.mem_cons_self _ _) rfl
  have h2 : ¬ (tmp = [] ∨ tmp.getLast? = some '/') := by
    rintro (rfl | hl)
    · exact htmp rfl
    · exact hlast hl
  simp [save_upload_path, os_path_join, h1, h2]

/-- Witness for C8 at a concrete tmp dir and traversal filename. -/
theorem C8_upload_filename_sanitized_witness :
    save_upload_path "./tmp".toList "a/b".toList =
      "./tmp".toList ++ '/' :: basename "a/b".toList :=
  C8_upload_filename_sanitized.2.1 "./tmp".toList "a/b".toList (by decide)
    (by decide)

/-- C5: prompt assembly is deterministic (a pure function of the query
and matches) and yields exactly two messages, system then user; the
context is the chunk texts joined by the fixed separator with empty
texts skipped; the user message contains the literal query and the
assembled context; with no matches the context is empty and the
language-model call still proceeds. -/
theorem C5_prompt_assembly :
    ∀ (q : String) (docs : List Doc)
      (llm : List Msg → String → Nat → ℚ → Except String String)
      (model : String) (mot : Nat) (temp : ℚ),
    (build_messages q docs).length = 2 ∧
    (build_messages q docs).map Msg.role = ["system", "user"] ∧
    build_messages q docs =
      [⟨"system", system_content⟩, ⟨"user", user_content q docs⟩] ∧
    build_context docs = String.intercalate contextSep
      ((docs.filter (fun d => d.page_content ≠ "")).map
        (fun d => d.page_content)) ∧
    (∀ d ds, d.page_content = "" →
      build_context (d :: ds) = build_context ds) ∧
    (∃ a b, user_content q docs = a ++ q ++ b) ∧
    (∃ a, user_content q docs = a ++ build_context docs) ∧
    build_context ([] : List Doc) = "" ∧
    answer llm q [] model mot temp = llm (build_messages q []) model mot temp := by
  intro q docs llm model mot temp
  refine ⟨rfl, rfl, rfl, rfl, ?_, ?_, ?_, by decide, rfl⟩
  · intro d ds hd
    simp [build_context, hd]
  · exact ⟨"User question:\n",
      "\n\n" ++ "Context (retrieved):\n" ++ build_context docs,
      by simp [user_content, String.append_assoc]⟩
  · exact ⟨"User question:\n" ++ q ++ "\n\n" ++ "Context (retrieved):\n",
      by simp [user_content, String.append_assoc]⟩

/-- Witness for C5: skipping an empty chunk at a concrete input. -/
theorem C5_prompt_assembly_witness :
    build_context (⟨"", []⟩ :: [⟨"x", []⟩]) = build_context [⟨"x", []⟩] :=
  (C5_prompt_assembly "q" [] (fun _ _ _ _ => .ok "a") "m" 1 0).2.2.2.2.1
    ⟨"", []⟩ [⟨"x", []⟩] rfl

/-- C3: retrieval embeds the query and issues one nearest-neighbor RPC
whose payload carries the embedding, a match count equal to the
requested `k` clamped to `max_k`, the filter defaulting to the empty
map, and a `match_threshold` key present iff a threshold was supplied;
under the store's contract the result has length at most `k`. -/
theorem C3_retrieval_query_construction :
    ∀ (embed : String → List ℚ) (rpc : RpcPayload → Option (List Row))
      (q : String) (req_k : Nat) (f : Option Meta) (mt : Option ℚ),
    (similarity_search_payload embed q (retrieval_k req_k) f mt).query_embedding
      = embed q ∧
    (similarity_search_payload embed q (retrieval_k req_k) f mt).match_count
      = min req_k settings_max_k ∧
    retrieval_k req_k ≤ settings_max_k ∧
    (f = none →
      (similarity_search_payload embed q (retrieval_k req_k) f mt).filter = []) ∧
    (similarity_search_payload embed q (retrieval_k req_k) f mt).match_threshold
      = mt ∧
    similarity_search embed rpc q (retrieval_k req_k) f mt =
      (pyOrRows
        (rpc (similarity_search_payload embed q (retrieval_k req_k) f mt))).map
        rowToDoc ∧
    ((∀ p : RpcPayload, (pyOrRows (rpc p)).length ≤ p.match_count) →
      (similarity_search embed rpc q (retrieval_k req_k) f mt).length ≤ req_k) := by
  intro embed rpc q req_k f mt
  refine ⟨rfl, rfl, Nat.min_le_right _ _, ?_, rfl, rfl, ?_⟩
  · intro hf
    simp [similarity_search_payload, hf, pyOrMeta]
  · intro hstore
    rw [similarity_search, List.length_map]
    exact le_trans (hstore _) (Nat.min_le_left _ _)

/-- Witness for C3: with a store honoring its count contract the
result length is bounded by the requested `k`. -/
theorem C3_retrieval_query_construction_witness :
    (similarity_search (fun _ => []) (fun _ => some []) "q" (retrieval_k 4)
      none none).length ≤ 4 :=
  (C3_retrieval_query_construction (fun _ => []) (fun _ => some []) "q" 4
    none none).2.2.2.2.2.2 (fun p => by simp [pyOrRows])

set_option maxRecDepth 8192 in
/-- C6: `schemas.py` does not define the `SourceDoc` name that
`chat.py` imports (the module cannot load, a code bug); the handler
body as written produces, per successful response, exactly one sources
entry per retrieved match, each carrying a `content_preview` and the
match's metadata. -/
theorem C6_chat_response_sources :
    ("SourceDoc" ∈ chat_route_schema_imports ∧
      "SourceDoc" ∉ schemas_exports) ∧
    (∀ (embed : String → List ℚ) (rpc : RpcPayload → Option (List Row))
      (llm : List Msg → String → Nat → ℚ → Except String String)
      (req : ChatRequest) (resp : ChatResponse),
      chat_route embed rpc llm req = .ok resp →
      resp.sources = (similarity_search embed rpc req.query (retrieval_k req.k)
        req.filter req.match_threshold).map mkSource ∧
      resp.sources.length = (similarity_search embed rpc req.query
        (retrieval_k req.k) req.filter req.match_threshold).length) ∧
    (∀ d : Doc, (mkSource d).metadata = d.metadata ∧
      (mkSource d).content_preview = (truthyStr d.page_content "").take 500) := by
  have himp : ("SourceDoc" : String) ∈ chat_route_schema_imports := by decide
  have hexp : ("SourceDoc" : String) ∉ schemas_exports := by decide
  refine ⟨⟨himp, hexp⟩, ?_,
    fun d => ⟨by simp [mkSource, pyOrMeta_some], by simp [mkSource]⟩⟩
  intro embed rpc llm req resp hok
  simp only [chat_route] at hok
  split at hok
  · exact absurd hok (by simp)
  · cases hok
    simp

/-- Witness for C6 discharging the successful-response hypothesis at a
concrete request and set of collaborators. -/
theorem C6_chat_response_sources_witness :
    (ChatResponse.mk "ans" []).sources =
      (similarity_search (fun _ => []) (fun _ => some []) "q" (retrieval_k 4)
        none none).map mkSource :=
  (C6_chat_response_sources.2.1 (fun _ => []) (fun _ => some [])
    (fun _ _ _ _ => .ok "ans") ⟨"q", 4, none, none, none, none, none⟩
    ⟨"ans", []⟩ rfl).1

/-- C9, counterexample to the claim as stated: when the store's own
metadata already contains the `_id` key, its value is overwritten by
the store-assigned identifier, so not all store-returned metadata is
preserved. -/
theorem C9_counterexample :
    (pyOrMeta c9row.metadata []).lookup "_id" = some (.vstr "old") ∧
    (rowToDoc c9row).metadata.lookup "_id" = some (.vstr "rowid") ∧
    (Val.vstr "rowid") ≠ (Val.vstr "old") := by
  refine ⟨by decide, ?_, by decide⟩
  rw [rowToDoc_metadata_id]
  decide

/-- C9 (amended): the row mapping is total and never fails; missing
content defaults to the empty string after falling back to
`page_content`; all store-returned metadata is preserved except the
reserved annotation keys `_id` and `_similarity`, which are set to the
store-assigned identifier and similarity score. -/
theorem C9_row_mapping_total (rows : List Row) (r : Row) :
    (rows.map rowToDoc).length = rows.length ∧
    (rowToDoc r).page_content = pyOrStr r.content (pyOrStr r.page_content "") ∧
    (r.content = none → r.page_content = none →
      (rowToDoc r).page_content = "") ∧
    (∀ k, k ≠ "_id" → k ≠ "_similarity" →
      (rowToDoc r).metadata.lookup k = (pyOrMeta r.metadata []).lookup k) ∧
    (rowToDoc r).metadata.lookup "_id" = some (optStrVal r.id) ∧
    (rowToDoc r).metadata.lookup "_similarity" =
      some (optNumVal r.similarity) := by
  refine ⟨List.length_map _ _, rfl, ?_, ?_, rowToDoc_metadata_id r,
    rowToDoc_metadata_similarity r⟩
  · intro h1 h2
    simp [rowToDoc, h1, h2, pyOrStr]
  · intro k hk1 hk2
    show (dictInsert (dictInsert (pyOrMeta r.metadata []) "_id"
      (optStrVal r.id)) "_similarity" (optNumVal r.similarity)).lookup k
      = (pyOrMeta r.metadata []).lookup k
    rw [dictInsert_lookup_ne _ _ _ _ hk2, dictInsert_lookup_ne _ _ _ _ hk1]

/-- Witness for C9 at a concrete row and non-reserved key. -/
theorem C9_row_mapping_total_witness :
    (rowToDoc c9row).metadata.lookup "page" =
      (pyOrMeta c9row.metadata []).lookup "page" :=
  (C9_row_mapping_total [] c9row).2.2.2.1 "page" (by decide) (by decide)

/-- C4, counterexample to the claim as stated: for a store reply the
store did not rank (similarity `0` before similarity `1`), the search
output is not sorted by similarity descending — the code performs no
defensive sort. -/
theorem C4_counterexample :
    ¬ sortedBySimDesc (similarity_search (fun _ => [])
      (fun _ => some [c4row0, c4row1]) "q" 5 none none) := by
  intro hch
  unfold sortedBySimDesc at hch
  rw [show similarity_search (fun _ => []) (fun _ => some [c4row0, c4row1])
    "q" 5 none none = [rowToDoc c4row0, rowToDoc c4row1] from rfl] at hch
  have h1 := (List.chain'_cons.mp hch).1
  revert h1
  decide

/-- C4 (amended): `similarity_search` preserves the store's row order
exactly — the output similarity annotations are the rows' similarity
fields in unchanged order (ties and everything else keep store order) —
and the output is sorted by similarity descending whenever the store's
rows already are. -/
theorem C4_store_order_preserved (rows : List Row) :
    ((rows.map rowToDoc).map docSim = rows.map (fun r => r.similarity)) ∧
    (List.Chain' (fun a b =>
        (b.similarity).getD 0 ≤ (a.similarity).getD 0) rows →
      sortedBySimDesc (rows.map rowToDoc)) := by
  constructor
  · rw [List.map_map]
    exact List.map_congr_left (fun r _ => docSim_rowToDoc r)
  · intro hs
    rw [sortedBySimDesc, List.chain'_map]
    simpa only [docSim_rowToDoc] using hs

/-- Witness for C4: a store reply already ranked descending maps to a
sorted output. -/
theorem C4_store_order_preserved_witness :
    sortedBySimDesc ([c4row1, c4row0].map rowToDoc) :=
  (C4_store_order_preserved [c4row1, c4row0]).2
    (List.chain'_cons.mpr ⟨by decide, by simp⟩)

/-- C2, counterexample to the claim as stated: with an invalid
configuration (`chunk_overlap = chunk_size = 2`), the pipeline rejects
the call with `InvalidConfig`, but the document loader — an I/O
collaborator — has already been invoked, because
`ingest_pdf_path` loads the PDF before splitting. -/
theorem C2_counterexample :
    (ingest_pdf_path (.ok [c2unit]) (fun _ => .ok ()) ⟨2, 2⟩).1 =
      .error .invalidConfig ∧
    Event.loaderCall ∈ (ingest_pdf_path (.ok [c2unit]) (fun _ => .ok ()) ⟨2, 2⟩).2 := by
  exact ⟨rfl, by decide⟩

/-- C2 (amended): an invalid configuration (`chunk_overlap >=
chunk_size`, or non-positive `chunk_size`, or negative
`chunk_overlap`) makes splitting fail with `InvalidConfig` before any
chunk is produced and before the embed/write collaborator is invoked;
the document loader, however, has already run by then. -/
theorem C2_invalid_config_rejected (cfg : IngestionConfig)
    (h : cfg.chunk_size ≤ cfg.chunk_overlap ∨ cfg.chunk_size ≤ 0 ∨
      cfg.chunk_overlap < 0) :
    (∀ units, split cfg units = .error .invalidConfig) ∧
    (∀ units (write : List Chunk → Except PipeError Unit),
      ingest_pdf_path (.ok units) write cfg =
        (.error .invalidConfig, [.loaderCall]) ∧
      Event.storeWriteCall ∉ (ingest_pdf_path (.ok units) write cfg).2) := by
  have hv : ¬ (validConfig cfg = true) := by
    simp only [validConfig, Bool.and_eq_true, decide_eq_true_eq]
    omega
  have hs : ∀ units, split cfg units = .error .invalidConfig := by
    intro units
    rw [split, if_neg hv]
  refine ⟨hs, fun units write => ?_⟩
  have : ingest_pdf_path (.ok units) write cfg =
      (.error .invalidConfig, [.loaderCall]) := by
    simp [ingest_pdf_path, hs units]
  rw [this]
  exact ⟨rfl, by decide⟩

/-- Witness for C2 at the concrete configuration `size 2, overlap 2`. -/
theorem C2_invalid_config_rejected_witness :
    split ⟨2, 2⟩ [c2unit] = .error .invalidConfig :=
  (C2_invalid_config_rejected ⟨2, 2⟩ (by decide)).1 [c2unit]

/-- C7: `ingest_pdf_path` returns exactly the number of chunks the
splitter produced and that were written to the store; a loader,
splitter-validation or write failure aborts the whole call with that
error; a successful count is reported only when every stage
succeeded. -/
theorem C7_ingest_count_and_abort :
    (∀ (units : List SourceUnit) (cfg : IngestionConfig)
      (write : List Chunk → Except PipeError Unit),
      validConfig cfg = true →
      write (splitUnits cfg.chunk_size.toNat cfg.chunk_overlap.toNat units)
        = .ok () →
      ingest_pdf_path (.ok units) write cfg =
        (.ok (splitUnits cfg.chunk_size.toNat cfg.chunk_overlap.toNat
          units).length, [.loaderCall, .storeWriteCall])) ∧
    (∀ (e : PipeError) (write : List Chunk → Except PipeError Unit)
      (cfg : IngestionConfig),
      ingest_pdf_path (.error e) write cfg = (.error e, [.loaderCall])) ∧
    (∀ (units : List SourceUnit) (cfg : IngestionConfig)
      (write : List Chunk → Except PipeError Unit) (e : PipeError),
      validConfig cfg = true →
      write (splitUnits cfg.chunk_size.toNat cfg.chunk_overlap.toNat units)
        = .error e →
      (ingest_pdf_path (.ok units) write cfg).1 = .error e) ∧
    (∀ (load : Except PipeError (List SourceUnit))
      (write : List Chunk → Except PipeError Unit)
      (cfg : IngestionConfig) (n : Nat),
      (ingest_pdf_path load write cfg).1 = .ok n →
      ∃ units, load = .ok units ∧ validConfig cfg = true ∧
        n = (splitUnits cfg.chunk_size.toNat cfg.chunk_overlap.toNat
          units).length ∧
        write (splitUnits cfg.chunk_size.toNat cfg.chunk_overlap.toNat units)
          = .ok ()) := by
  have hsok : ∀ (cfg : IngestionConfig) units, validConfig cfg = true →
      split cfg units =
        .ok (splitUnits cfg.chunk_size.toNat cfg.chunk_overlap.toNat units) := by
    intro cfg units hv
    rw [split, if_pos hv]
  refine ⟨?_, fun e write cfg => rfl, ?_, ?_⟩
  · intro units cfg write hv hw
    simp [ingest_pdf_path, hsok cfg units hv, hw]
  · intro units cfg write e hv hw
    simp [ingest_pdf_path, hsok cfg units hv, hw]
  · intro load write cfg n h
    cases load with
    | error e => simp [ingest_pdf_path] at h
    | ok units =>
      refine ⟨units, rfl, ?_⟩
      by_cases hv : validConfig cfg = true
      · rw [ingest_pdf_path] at h
        rw [hsok cfg units hv] at h
        cases hw : write (splitUnits cfg.chunk_size.toNat
            cfg.chunk_overlap.toNat units) with
        | error e => simp [hw] at h
        | ok u =>
          cases u
          simp [hw] at h
          exact ⟨hv, h.symm, rfl⟩
      · have : split cfg units = .error .invalidConfig := by
          rw [split, if_neg hv]
        rw [ingest_pdf_path, this] at h
        simp at h

/-- Witness for C7 on a concrete successful ingest of one unit with a
valid configuration. -/
theorem C7_ingest_count_and_abort_witness :
    ingest_pdf_path (.ok [c2unit]) (fun _ => .ok ()) ⟨3, 1⟩ =
      (.ok (splitUnits 3 1 [c2unit]).length,
       [.loaderCall, .storeWriteCall]) :=
  C7_ingest_count_and_abort.1 [c2unit] ⟨3, 1⟩ (fun _ => .ok ())
    (by decide) rfl

/-- C1: for `0 <= o < s`, splitting a unit's text yields chunks of
length at most `s`, all non-empty, with consecutive chunks overlapping
in exactly `o` characters (each non-final chunk has length exactly `s`
and the next chunk starts `s - o` further: its `o`-character head is
the previous chunk's tail), the `i`-th chunk being the window of
length `s` at offset `i * (s - o)`, the final chunk taking the
remainder, nothing padded or dropped (the chunks reassemble to the
original text), empty text yielding no chunks, and each source unit
split independently with an empty unit contributing nothing. -/
theorem C1_text_splitter (s o : Nat) (h : o < s) (t : List Char) :
    (∀ c ∈ splitUnit s o t, c.length ≤ s) ∧
    (∀ c ∈ splitUnit s o t, c ≠ []) ∧
    splitUnit s o [] = [] ∧
    List.Chain' (fun a b => a.length = s ∧ o < b.length ∧
      b.take o = a.drop (s - o)) (splitUnit s o t) ∧
    splitUnit s o t = (List.range (splitUnit s o t).length).map
      (fun i => (t.drop (i * (s - o))).take s) ∧
    (t ≠ [] → (splitUnit s o t).getLast? =
      some (t.drop (((splitUnit s o t).length - 1) * (s - o)))) ∧
    rejoin o (splitUnit s o t) = t ∧
    (∀ (u : SourceUnit) (us : List SourceUnit),
      splitUnits s o (u :: us) =
        ((splitUnit s o u.text).enum).map
          (fun it => Chunk.mk it.2 u.metadata it.1) ++ splitUnits s o us) ∧
    (∀ (u : SourceUnit) (us : List SourceUnit), u.text = [] →
      splitUnits s o (u :: us) = splitUnits s o us) := by
  have hstep : 0 < s - o := by omega
  have hss : s - o ≤ s := Nat.sub_le s o
  have hs : 0 < s := by omega
  refine ⟨splitStep_length_le s (s - o) t,
    splitStep_mem_ne_nil s (s - o) hs t, splitStep_nil s (s - o),
    splitUnit_chain s o h t, splitStep_closed_form s (s - o) hstep t,
    splitStep_getLast s (s - o) hstep hss t, splitUnit_rejoin s o h t,
    ?_, ?_⟩
  · intro u us
    simp [splitUnits]
  · intro u us hu
    simp [splitUnits, hu, splitUnit, splitStep_nil]

/-- Witness for C1 at `s = 3`, `o = 1` and the text `"abcde"`. -/
theorem C1_text_splitter_witness :
    (∀ c ∈ splitUnit 3 1 "abcde".toList, c.length ≤ 3) ∧
    rejoin 1 (splitUnit 3 1 "abcde".toList) = "abcde".toList ∧
    (splitUnit 3 1 "abcde".toList).getLast? =
      some ("abcde".toList.drop
        (((splitUnit 3 1 "abcde".toList).length - 1) * (3 - 1))) :=
  ⟨(C1_text_splitter 3 1 (by decide) "abcde".toList).1,
   (C1_text_splitter 3 1 (by decide) "abcde".toList).2.2.2.2.2.2.1,
   (C1_text_splitter 3 1 (by decide) "abcde".toList).2.2.2.2.2.1 (by decide)⟩

end SupaRag
